import Mathlib

/-!
Verification of `np.py`, a small script that scaffolds CMake projects and
resynchronizes the `SRCS`/`HDRS` list regions of a `CMakeLists.txt` with the
contents of the `src` and `include` directories.

The Python source is shallowly embedded: file buffers are lists of line
strings, the `os.walk` result is a list of entries (file name plus path
relative to the walked subdirectory), the filesystem touched by the project
initializer is a record of directories and files, and exceptions
(`NameError`, `TypeError`, `ValueError`) are modelled with `Option`/`Except`
or error components.
-/

/-- Python's `needle in hay` substring test on strings. -/
def strContains (hay needle : String) : Bool := decide (needle.data <:+: hay.data)

/-- `all(word in line for word in tokens)` from `update_cmakelist_sources`:
a line is a region marker line when every token occurs in it as a substring. -/
def matchesTokens (tokens : List String) (line : String) : Bool :=
  tokens.all (fun w => strContains line w)

/-- Python's `line.startswith(')')`: the raw (untrimmed) line begins with a
closing parenthesis. -/
def startsWithParen (line : String) : Bool :=
  match line.data with
  | [] => false
  | c :: _ => c = ')'

/-- The mutable scan variables of `update_cmakelist_sources`: `seek_end` is
initialised once before the region loop; `start_index` and `end_index` are
plain Python locals, `none` modelling a still-unbound variable. -/
structure ScanState where
  seek_end : Bool
  start_index : Option Nat
  end_index : Option Nat
deriving DecidableEq, Repr

/-- One iteration of the `for index, line in enumerate(lines)` scan loop. -/
def scanStep (tokens : List String) (st : ScanState) (idx : Nat) (line : String) : ScanState :=
  if st.seek_end = false then
    if matchesTokens tokens line then
      { st with start_index := some (idx + 1), seek_end := true }
    else st
  else
    if startsWithParen line then
      { st with seek_end := false, end_index := some idx }
    else st

/-- The whole scan loop, folding `scanStep` over the enumerated lines. -/
def scanLines (tokens : List String) : ScanState → Nat → List String → ScanState
  | st, _, [] => st
  | st, i, l :: ls => scanLines tokens (scanStep tokens st i l) (i + 1) ls

/-- Python `del lines[a:b]` for non-negative indices (clamping slice
semantics: nothing is removed when `b ≤ a`). -/
def pySliceDelete (l : List String) (a b : Nat) : List String :=
  l.take a ++ l.drop (max a b)

/-- Python `lines[a:0] = new` for `0 ≤ a`: inserts `new` at position `a`
(clamped to the length of the list). -/
def pyInsertAt (l : List String) (a : Nat) (new : List String) : List String :=
  l.take a ++ new ++ l.drop a

/-- One iteration of the region loop of `update_cmakelist_sources`: run the
scan from index 0 with the carried state, call discovery (`newFilesOpt`,
`none` when `seek_sources` raised), then `del lines[start_index:end_index]`
and `lines[start_index:0] = new_files`.  The result is `none` when discovery
raised or when either index variable is still unbound (Python `NameError`);
otherwise the updated buffer together with the scan state that the next
region iteration inherits. -/
def regionPass (tokens : List String) (st : ScanState) (newFilesOpt : Option (List String))
    (lines : List String) : Option (List String × ScanState) :=
  let st' := scanLines tokens st 0 lines
  match newFilesOpt with
  | none => none
  | some newFiles =>
    match st'.start_index, st'.end_index with
    | some a, some b => some (pyInsertAt (pySliceDelete lines a b) a newFiles, st')
    | _, _ => none

/-- `update_cmakelist_sources`, parameterised by the two discovery results
(the values of `seek_sources('src', …)` and `seek_sources('include', …)`).
The `search_data` dict fixes the marker tokens `['set', 'SRCS']` for the
`src` region and `['set', 'HDR']` for the `include` region, processed in that
order; the scan state is carried from the first region into the second, as in
the source.  `none` means the run died on an exception before the file was
rewritten; `some` is the buffer written back to disk. -/
def update_cmakelist_sources (srcFiles hdrFiles : Option (List String))
    (lines : List String) : Option (List String) :=
  match regionPass ["set", "SRCS"] ⟨false, none, none⟩ srcFiles lines with
  | none => none
  | some (lines1, st1) =>
    match regionPass ["set", "HDR"] st1 hdrFiles lines1 with
    | none => none
    | some (lines2, _) => some lines2

/-- `language_extensions = ('.c', 'cpp', 'cxx', 'h', 'hpp', 'hxx')`. -/
def language_extensions : List String := [".c", "cpp", "cxx", "h", "hpp", "hxx"]

/-- Python's tuple form of `file.endswith(...)`: true when the name ends with
any of the given suffixes. -/
def endswithAny (s : String) (suffixes : List String) : Bool :=
  suffixes.any (fun e => decide (e.data <:+ s.data))

/-- `path.replace('\\', '/')`: single-character replacement is a map. -/
def normSlashes (s : String) : String :=
  ⟨s.data.map (fun c => if c = '\\' then '/' else c)⟩

/-- CPython `str.expandtabs(tabsize)` on a character list: a tab advances the
column to the next multiple of `tabsize` when `tabsize > 0` and is dropped
otherwise; `\n` and `\r` reset the column; other characters advance it. -/
def expandTabsGo (w : Int) : Nat → List Char → List Char
  | _, [] => []
  | col, c :: cs =>
    if c = '\t' then
      if w ≤ 0 then expandTabsGo w col cs
      else
        List.replicate (w.toNat - col % w.toNat) ' ' ++
          expandTabsGo w (col + (w.toNat - col % w.toNat)) cs
    else if c = '\n' ∨ c = '\r' then c :: expandTabsGo w 0 cs
    else c :: expandTabsGo w (col + 1) cs

/-- `s.expandtabs(w)`. -/
def expandtabsStr (s : String) (w : Int) : String := ⟨expandTabsGo w 0 s.data⟩

/-- The `NPSettings` object: `use_tabs` selects tab indentation and
`expanded_spaces` is the tab width used by `expandtabs`.  Python stores the
result of `int(value)`, which may be negative, hence `Int`. -/
structure NPSettings where
  use_tabs : Bool
  expanded_spaces : Int
deriving DecidableEq, Repr

/-- The defaults assigned by `NPSettings.__init__`. -/
def NPSettings.initial : NPSettings := ⟨false, 2⟩

/-- One entry produced by walking a subdirectory: the bare file name (tested
against `language_extensions`) and `os.path.relpath(os.path.join(root, file),
subfolder)`, the path of the file relative to the walked subdirectory. -/
structure WalkEntry where
  fname : String
  rel : String
deriving DecidableEq, Repr

/-- The formatted path line built by `seek_sources` for one matching file:
`'\t{subfolder}/{relpath with backslashes normalised}\n'`, expanded to spaces
unless tabs are requested. -/
def formatPath (subfolder : String) (settings : NPSettings) (rel : String) : String :=
  let path := "\t" ++ subfolder ++ "/" ++ normSlashes rel ++ "\n"
  if settings.use_tabs = false then expandtabsStr path settings.expanded_spaces else path

/-- `seek_sources(subfolder, settings)` over an abstract walk result.  Files
whose name ends with one of `language_extensions` each yield one formatted
line, in walk order.  When no file matches, the source computes the fallback
comment but then calls `resulting_paths.append()` with no argument, raising
`TypeError`; that crash is modelled by `none`. -/
def seek_sources (subfolder : String) (settings : NPSettings) (walk : List WalkEntry) :
    Option (List String) :=
  let resulting_paths := walk.filterMap (fun e =>
    if endswithAny e.fname language_extensions then
      some (formatPath subfolder settings e.rel)
    else none)
  if resulting_paths.isEmpty then none else some resulting_paths

/-- The full update pipeline: settings are already loaded, discovery runs on
the walks of `src` and `include`, and the two regions are rewritten. -/
def np_update (settings : NPSettings) (walkSrc walkInclude : List WalkEntry)
    (lines : List String) : Option (List String) :=
  update_cmakelist_sources
    (seek_sources "src" settings walkSrc)
    (seek_sources "include" settings walkInclude) lines

/-- Python whitespace for `str.strip()` (the ASCII cases). -/
def isPySpace (c : Char) : Bool :=
  c = ' ' ∨ c = '\t' ∨ c = '\n' ∨ c = '\r' ∨ c = '\x0b' ∨ c = '\x0c'

/-- `s.strip()` on a character list. -/
def pyTrim (l : List Char) : List Char :=
  ((l.dropWhile isPySpace).reverse.dropWhile isPySpace).reverse

/-- `s.lower()` on a character list (ASCII case folding). -/
def pyLower (l : List Char) : List Char :=
  l.map (fun c => if 'A' ≤ c ∧ c ≤ 'Z' then Char.ofNat (c.toNat + 32) else c)

/-- `s.split(sep)` for a one-character separator, on character lists. -/
def pySplitChar (sep : Char) : List Char → List (List Char)
  | [] => [[]]
  | c :: cs =>
    match pySplitChar sep cs with
    | [] => [[]]
    | g :: gs => if c = sep then [] :: g :: gs else (c :: g) :: gs

/-- Stated from the claim's words, for comparison with the code's scanner:
the endpoint the spec describes is the first line at or after `start` whose
*trimmed* content begins with a closing parenthesis. -/
def claimEndBoundary (lines : List String) (start : Nat) : Option Nat :=
  ((lines.drop start).findIdx? (fun l => startsWithParen ⟨pyTrim l.data⟩)).map (· + start)

/-- First character is `#` (`line.strip().startswith('#')` after trimming). -/
def headIsHash (l : List Char) : Bool :=
  match l with
  | [] => false
  | c :: _ => c = '#'

/-- ASCII decimal digit. -/
def isDigitChar (c : Char) : Bool := 48 ≤ c.toNat ∧ c.toNat ≤ 57

/-- After an initial digit, Python's `int()` accepts further digits with
single underscores strictly between digits. -/
def digitsTail : List Char → Bool
  | [] => true
  | '_' :: c :: rest => isDigitChar c && digitsTail rest
  | '_' :: [] => false
  | c :: rest => isDigitChar c && digitsTail rest

/-- A non-empty unsigned digit run as accepted by `int()`. -/
def unsignedDigits : List Char → Bool
  | [] => false
  | c :: rest => isDigitChar c && digitsTail rest

/-- Numeric value of a digit run, skipping underscores. -/
def digitsToNat (l : List Char) : Nat :=
  l.foldl (fun a c => if c = '_' then a else a * 10 + (c.toNat - 48)) 0

/-- Python `int(value)` on an already-stripped string: optional sign followed
by a digit run; `none` models the `ValueError` raised on anything else. -/
def pyParseIntL (l : List Char) : Option Int :=
  match l with
  | '+' :: rest => if unsignedDigits rest then some (digitsToNat rest : Int) else none
  | '-' :: rest => if unsignedDigits rest then some (-(digitsToNat rest : Int)) else none
  | _ => if unsignedDigits l then some (digitsToNat l : Int) else none

/-- `distutils.util.strtobool`: lowercases its argument, maps the recognised
truthy and falsy spellings, and raises `ValueError` (here `none`) otherwise. -/
def strtoboolL (l : List Char) : Option Bool :=
  let v := pyLower l
  if ["y", "yes", "t", "true", "on", "1"].any (fun s => v = s.data) then some true
  else if ["n", "no", "f", "false", "off", "0"].any (fun s => v = s.data) then some false
  else none

/-- The uncaught `ValueError` that aborts `NPSettings.read` when a recognised
key has a malformed value, recorded with the 1-based number and raw text of
the settings line being parsed when it was raised. -/
inductive ConfigParseError where
  | badValue (lineNumber : Nat) (line : String)
deriving DecidableEq, Repr

/-- The recognised-key branch of the settings line loop, for a line that
split into exactly the two fields `k` and `v`: `use_tabs` values go through
`strtobool`, `expanded_spaces` values through `int`, an unrecognised key is
reported but skipped, and a malformed value raises. -/
def readKV (s : NPSettings) (index : Nat) (line : String) (k v : List Char) :
    Except ConfigParseError NPSettings :=
  let key := pyLower (pyTrim k)
  let value := pyLower (pyTrim v)
  if key = "use_tabs".data then
    match strtoboolL value with
    | some b => .ok { s with use_tabs := b }
    | none => .error (.badValue (index + 1) line)
  else if key = "expanded_spaces".data then
    match pyParseIntL value with
    | some n => .ok { s with expanded_spaces := n }
    | none => .error (.badValue (index + 1) line)
  else .ok s

/-- One iteration of the line loop of `NPSettings.read`: blank and `#` lines
are skipped, lines that do not split into exactly two `:`-separated fields
are reported but skipped, and two-field lines go through `readKV`.  A
successful iteration returns the settings object with that line's assignment
applied. -/
def readStep (s : NPSettings) (index : Nat) (line : String) : Except ConfigParseError NPSettings :=
  let t := pyTrim line.data
  if t = [] then .ok s
  else if headIsHash t then .ok s
  else
    match pySplitChar ':' line.data with
    | [k, v] => readKV s index line k v
    | _ => .ok s

/-- The line loop of `NPSettings.read`: the settings object is mutated field
by field, and the loop stops at the first malformed recognised-key value.  On
error the returned settings are the ones accumulated so far (the assignment
of the offending line itself never happened, because `strtobool`/`int` raise
before the field is written). -/
def readLines : NPSettings → Nat → List String → NPSettings × Option ConfigParseError
  | s, _, [] => (s, none)
  | s, i, l :: ls =>
    match readStep s i l with
    | .ok s' => readLines s' (i + 1) ls
    | .error e => (s, some e)

/-- `NPSettings.read` over the lines of an existing `.np` file. -/
def NPSettings.read (s : NPSettings) (lines : List String) :
    NPSettings × Option ConfigParseError :=
  readLines s 0 lines

/-- A two-field settings line whose key is recognised but whose value fails
to parse. -/
def badKV (k v : List Char) : Bool :=
  let key := pyLower (pyTrim k)
  let value := pyLower (pyTrim v)
  if key = "use_tabs".data then (strtoboolL value).isNone
  else if key = "expanded_spaces".data then (pyParseIntL value).isNone
  else false

/-- A settings line whose key is recognised but whose value fails to parse as
a boolean (for `use_tabs`) or an integer (for `expanded_spaces`);
exactly the lines on which `readStep` raises. -/
def recognizedKeyBadValue (line : String) : Bool :=
  let t := pyTrim line.data
  if t = [] then false
  else if headIsHash t then false
  else
    match pySplitChar ':' line.data with
    | [k, v] => badKV k v
    | _ => false

/-- Python `s.replace(pat, rep)` on character lists: leftmost non-overlapping
occurrences, fuelled by the length of the subject (every step consumes at
least one character while fuel is available, so the fuel never runs out). -/
def replaceAllFuel : Nat → List Char → List Char → List Char → List Char
  | 0, s, _, _ => s
  | fuel + 1, s, pat, rep =>
    match s with
    | [] => []
    | c :: cs =>
      if pat ≠ [] ∧ pat <+: s then rep ++ replaceAllFuel fuel (s.drop pat.length) pat rep
      else c :: replaceAllFuel fuel cs pat rep

/-- `s.replace(pat, rep)` for a non-empty pattern. -/
def strReplace (s pat rep : String) : String :=
  ⟨replaceAllFuel s.data.length s.data pat.data rep.data⟩

/-- The filesystem touched by the project initializer: the set of existing
directories and the files with their contents. -/
structure FileSystem where
  dirs : List String
  files : List (String × String)
deriving DecidableEq, Repr

/-- `os.path.exists`: the path is a known directory or file. -/
def path_exists (fs : FileSystem) (p : String) : Bool :=
  fs.dirs.contains p || (fs.files.map Prod.fst).contains p

/-- `make_project_folder`: refuses (returning `False`) when the path already
exists, otherwise creates the root and the `src` and `include`
subdirectories. -/
def make_project_folder (fs : FileSystem) (filepath : String) : FileSystem × Bool :=
  if path_exists fs filepath then (fs, false)
  else
    ({ fs with dirs := fs.dirs ++ [filepath, filepath ++ "/src", filepath ++ "/include"] },
      true)

/-- The `default_project_template` string literal of `create_project`. -/
def default_project_template : String :=
  "#\n# %project_name% CMakeLists.txt\n#\n\nproject ( %project_name% LANGUAGES %languages% )\n\ncmake_minimum_required( VERSION 3.18 )\n\nset ( SRCS \n  # project sources\n)\nset ( HDRS\n  # project headers\n)\n\nadd_executable( %project_name% ${SRCS} ${HDRS} )\ntarget_include_directories( %project_name% PRIVATE include )\n"

/-- Write-or-overwrite a file entry, as `io.open(path, 'w')` plus `write`. -/
def writeEntry (files : List (String × String)) (p c : String) : List (String × String) :=
  if (files.map Prod.fst).contains p then
    files.map (fun e => if e.1 = p then (p, c) else e)
  else files ++ [(p, c)]

/-- `create_project(name, filepath, languages)`: picks the target path, calls
`make_project_folder` but discards its boolean result (as the source does),
substitutes both placeholders, and opens `created_path + '/CMakeLists.txt'`
for writing.  The open succeeds whenever `created_path` is a directory —
including when it already existed — and raises (`none`) when the target path
exists but is not a directory. -/
def create_project (fs : FileSystem) (name : String) (filepath : Option String)
    (languages : String) : Option FileSystem :=
  let created_path := filepath.getD name
  let fs1 := (make_project_folder fs created_path).fst
  let cmake_project :=
    strReplace (strReplace default_project_template "%project_name%" name)
      "%languages%" languages
  if fs1.dirs.contains created_path then
    some { fs1 with files := writeEntry fs1.files (created_path ++ "/CMakeLists.txt") cmake_project }
  else none

/-! ## Scan-loop lemmas -/

theorem scanLines_append (tok : List String) (st : ScanState) (i : Nat)
    (l1 l2 : List String) :
    scanLines tok st i (l1 ++ l2) = scanLines tok (scanLines tok st i l1) (i + l1.length) l2 := by
  induction l1 generalizing st i with
  | nil => simp [scanLines]
  | cons l ls ih =>
    have hgoal : (l :: ls) ++ l2 = l :: (ls ++ l2) := rfl
    rw [hgoal]
    simp only [scanLines]
    rw [ih]
    have harith : i + 1 + ls.length = i + (l :: ls).length := by
      simp [List.length_cons]
      omega
    rw [harith]

theorem scanLines_no_match (tok : List String) (st : ScanState) (i : Nat)
    (L : List String) (hseek : st.seek_end = false)
    (hL : ∀ l ∈ L, matchesTokens tok l = false) :
    scanLines tok st i L = st := by
  induction L generalizing i with
  | nil => rfl
  | cons l ls ih =>
    have h1 : matchesTokens tok l = false := hL l (List.mem_cons_self l ls)
    simp only [scanLines]
    have hs : scanStep tok st i l = st := by simp [scanStep, hseek, h1]
    rw [hs]
    exact ih (i + 1) (fun x hx => hL x (List.mem_cons_of_mem _ hx))

theorem scanLines_no_paren (tok : List String) (st : ScanState) (i : Nat)
    (L : List String) (hseek : st.seek_end = true)
    (hL : ∀ l ∈ L, startsWithParen l = false) :
    scanLines tok st i L = st := by
  induction L generalizing i with
  | nil => rfl
  | cons l ls ih =>
    have h1 : startsWithParen l = false := hL l (List.mem_cons_self l ls)
    simp only [scanLines]
    have hs : scanStep tok st i l = st := by simp [scanStep, hseek, h1]
    rw [hs]
    exact ih (i + 1) (fun x hx => hL x (List.mem_cons_of_mem _ hx))

/-- The scan of a well-formed region: neutral prefix, marker line, interior
free of closing lines, closing line, neutral suffix.  The final state records
the boundaries of this region, whatever `start_index`/`end_index` held
before. -/
theorem scanLines_structured (tok : List String) (st : ScanState)
    (P I S : List String) (m c : String)
    (hseek : st.seek_end = false)
    (hP : ∀ l ∈ P, matchesTokens tok l = false)
    (hm : matchesTokens tok m = true)
    (hI : ∀ l ∈ I, startsWithParen l = false)
    (hc : startsWithParen c = true)
    (hS : ∀ l ∈ S, matchesTokens tok l = false) :
    scanLines tok st 0 (P ++ m :: I ++ c :: S) =
      ⟨false, some (P.length + 1), some (P.length + 1 + I.length)⟩ := by
  have hb : (P ++ m :: I) ++ c :: S = P ++ (m :: (I ++ c :: S)) := by simp
  rw [hb, scanLines_append, scanLines_no_match tok st 0 P hseek hP]
  simp only [scanLines, Nat.zero_add]
  have hstep1 : scanStep tok st P.length m =
      { st with start_index := some (P.length + 1), seek_end := true } := by
    simp [scanStep, hseek, hm]
  rw [hstep1, scanLines_append, scanLines_no_paren _ _ _ I rfl hI]
  simp only [scanLines]
  have hstep2 : scanStep tok
      { st with start_index := some (P.length + 1), seek_end := true }
      (P.length + 1 + I.length) c =
      ⟨false, some (P.length + 1), some (P.length + 1 + I.length)⟩ := by
    simp [scanStep, hc]
  rw [hstep2, scanLines_no_match _ _ _ S rfl hS]

/-- A well-formed region pass: exactly the lines strictly between the marker
line and the first raw closing line are removed, the freshly discovered lines
take their place, and the resulting scan state carries this region's
boundaries. -/
theorem regionPass_structured (tok : List String) (st : ScanState)
    (P I S : List String) (m c : String) (new : List String)
    (hseek : st.seek_end = false)
    (hP : ∀ l ∈ P, matchesTokens tok l = false)
    (hm : matchesTokens tok m = true)
    (hI : ∀ l ∈ I, startsWithParen l = false)
    (hc : startsWithParen c = true)
    (hS : ∀ l ∈ S, matchesTokens tok l = false) :
    regionPass tok st (some new) (P ++ m :: I ++ c :: S) =
      some (P ++ m :: new ++ c :: S,
        ⟨false, some (P.length + 1), some (P.length + 1 + I.length)⟩) := by
  have hscan := scanLines_structured tok st P I S m c hseek hP hm hI hc hS
  simp only [regionPass, hscan]
  have hlen1 : (P ++ [m]).length = P.length + 1 := by simp
  have hlen2 : ((P ++ [m]) ++ I).length = P.length + 1 + I.length := by
    simp
    omega
  have hbuf : (P ++ m :: I) ++ c :: S = ((P ++ [m]) ++ I) ++ c :: S := by simp
  have hdel : pySliceDelete (P ++ m :: I ++ c :: S) (P.length + 1) (P.length + 1 + I.length) =
      (P ++ [m]) ++ c :: S := by
    unfold pySliceDelete
    rw [Nat.max_eq_right (by omega), hbuf, List.drop_left' hlen2,
      List.append_assoc (P ++ [m]) I (c :: S), List.take_left' hlen1]
  have hins : pyInsertAt ((P ++ [m]) ++ c :: S) (P.length + 1) new =
      P ++ m :: new ++ c :: S := by
    unfold pyInsertAt
    rw [List.take_left' hlen1, List.drop_left' hlen1]
    simp
  rw [hdel, hins]

/-- A full well-formed update run.  The buffer decomposes as a neutral prefix
`P`, the sources region (`m1`, interior `I1`, close `c1`), a neutral middle
`M`, the headers region (`m2`, interior `I2`, close `c2`) and a neutral
suffix `S`; no line outside the marker lines matches the respective token
sets, interiors contain no raw closing lines, and the freshly discovered
source lines do not look like headers markers.  Both region interiors are
replaced and everything else survives unchanged and in order. -/
theorem update_structured
    (P I1 M I2 S src hdr : List String) (m1 c1 m2 c2 : String)
    (hP1 : ∀ l ∈ P, matchesTokens ["set", "SRCS"] l = false)
    (hP2 : ∀ l ∈ P, matchesTokens ["set", "HDR"] l = false)
    (hm1 : matchesTokens ["set", "SRCS"] m1 = true)
    (hm1h : matchesTokens ["set", "HDR"] m1 = false)
    (hI1 : ∀ l ∈ I1, startsWithParen l = false)
    (hc1 : startsWithParen c1 = true)
    (hc1h : matchesTokens ["set", "HDR"] c1 = false)
    (hM1 : ∀ l ∈ M, matchesTokens ["set", "SRCS"] l = false)
    (hM2 : ∀ l ∈ M, matchesTokens ["set", "HDR"] l = false)
    (hm2 : matchesTokens ["set", "HDR"] m2 = true)
    (hm2s : matchesTokens ["set", "SRCS"] m2 = false)
    (hI2 : ∀ l ∈ I2, startsWithParen l = false)
    (hI2s : ∀ l ∈ I2, matchesTokens ["set", "SRCS"] l = false)
    (hc2 : startsWithParen c2 = true)
    (hc2s : matchesTokens ["set", "SRCS"] c2 = false)
    (hS1 : ∀ l ∈ S, matchesTokens ["set", "SRCS"] l = false)
    (hS2 : ∀ l ∈ S, matchesTokens ["set", "HDR"] l = false)
    (hsrcH : ∀ l ∈ src, matchesTokens ["set", "HDR"] l = false) :
    update_cmakelist_sources (some src) (some hdr)
        (P ++ m1 :: I1 ++ c1 :: (M ++ m2 :: I2 ++ c2 :: S)) =
      some (P ++ m1 :: src ++ c1 :: (M ++ m2 :: hdr ++ c2 :: S)) := by
  have hS' : ∀ l ∈ M ++ m2 :: I2 ++ c2 :: S, matchesTokens ["set", "SRCS"] l = false := by
    intro l hl
    simp only [List.mem_append, List.mem_cons] at hl
    rcases hl with (h | (h | h)) | (h | h)
    · exact hM1 l h
    · exact h ▸ hm2s
    · exact hI2s l h
    · exact h ▸ hc2s
    · exact hS1 l h
  have h1 := regionPass_structured ["set", "SRCS"] ⟨false, none, none⟩
    P I1 (M ++ m2 :: I2 ++ c2 :: S) m1 c1 src rfl hP1 hm1 hI1 hc1 hS'
  have hP' : ∀ l ∈ (P ++ m1 :: src ++ c1 :: M), matchesTokens ["set", "HDR"] l = false := by
    intro l hl
    simp only [List.mem_append, List.mem_cons] at hl
    rcases hl with (h | (h | h)) | (h | h)
    · exact hP2 l h
    · exact h ▸ hm1h
    · exact hsrcH l h
    · exact h ▸ hc1h
    · exact hM2 l h
  have h2 := regionPass_structured ["set", "HDR"]
    ⟨false, some (P.length + 1), some (P.length + 1 + I1.length)⟩
    (P ++ m1 :: src ++ c1 :: M) I2 S m2 c2 hdr rfl hP' hm2 hI2 hc2 hS2
  have hshape : (P ++ m1 :: src) ++ c1 :: (M ++ m2 :: I2 ++ c2 :: S) =
      ((P ++ m1 :: src ++ c1 :: M) ++ m2 :: I2) ++ c2 :: S := by simp
  simp only [update_cmakelist_sources, h1, hshape, h2]
  simp

/-! ## Discovery lemmas -/

theorem expandTabsGo_no_tab (w : Int) :
    ∀ (l : List Char), '\t' ∉ l → ∀ col, expandTabsGo w col l = l := by
  intro l
  induction l with
  | nil => intro _ _; rfl
  | cons c cs ih =>
    intro h col
    have hc : ¬c = '\t' := fun e => h (e ▸ List.mem_cons_self c cs)
    have hcs : '\t' ∉ cs := fun hx => h (List.mem_cons_of_mem _ hx)
    by_cases hnl : c = '\n' ∨ c = '\r'
    · simp [expandTabsGo, hc, hnl, ih hcs]
    · simp [expandTabsGo, hc, hnl, ih hcs]

theorem normSlashes_no_tab (rel : String) (h : '\t' ∉ rel.data) :
    '\t' ∉ (normSlashes rel).data := by
  simp only [normSlashes]
  intro hmem
  rw [List.mem_map] at hmem
  obtain ⟨c, hc, heq⟩ := hmem
  by_cases hb : c = '\\'
  · simp [hb] at heq
  · simp [hb] at heq
    exact h (heq ▸ hc)

/-- The indentation unit the spec describes: a literal tab under tab
settings, otherwise `expanded_spaces` spaces (none when the configured width
is not positive, matching `expandtabs`). -/
def indentUnit (settings : NPSettings) : String :=
  if settings.use_tabs then "\t" else ⟨List.replicate settings.expanded_spaces.toNat ' '⟩

theorem formatPath_eq (sub : String) (settings : NPSettings) (rel : String)
    (hsub : '\t' ∉ sub.data) (hrel : '\t' ∉ rel.data) :
    formatPath sub settings rel = indentUnit settings ++ sub ++ "/" ++ normSlashes rel ++ "\n" := by
  cases htabs : settings.use_tabs with
  | true => simp [formatPath, indentUnit, htabs]
  | false =>
    have hrest : '\t' ∉ sub.data ++ '/' :: ((normSlashes rel).data ++ ['\n']) := by
      intro hmem
      rw [List.mem_append] at hmem
      rcases hmem with h | h
      · exact hsub h
      · rw [List.mem_cons] at h
        rcases h with h | h
        · simp at h
        · rw [List.mem_append] at h
          rcases h with h | h
          · exact normSlashes_no_tab rel hrel h
          · simp at h
    have hdata : ("\t" ++ sub ++ "/" ++ normSlashes rel ++ "\n").data =
        '\t' :: (sub.data ++ '/' :: ((normSlashes rel).data ++ ['\n'])) := by
      simp [String.data_append]
    have hx : formatPath sub settings rel =
        ⟨expandTabsGo settings.expanded_spaces 0
          ('\t' :: (sub.data ++ '/' :: ((normSlashes rel).data ++ ['\n'])))⟩ := by
      simp only [formatPath, htabs, if_pos, expandtabsStr, hdata]
    have hru : indentUnit settings =
        ⟨List.replicate settings.expanded_spaces.toNat ' '⟩ := by
      simp [indentUnit, htabs]
    rw [hx, hru]
    apply String.ext
    have hrhs : ((⟨List.replicate settings.expanded_spaces.toNat ' '⟩ : String) ++
          sub ++ "/" ++ normSlashes rel ++ "\n").data =
        List.replicate settings.expanded_spaces.toNat ' ' ++
          (sub.data ++ '/' :: ((normSlashes rel).data ++ ['\n'])) := by
      simp [String.data_append]
    rw [hrhs]
    show expandTabsGo settings.expanded_spaces 0
        ('\t' :: (sub.data ++ '/' :: ((normSlashes rel).data ++ ['\n']))) = _
    by_cases hw : settings.expanded_spaces ≤ 0
    · simp only [expandTabsGo, if_pos hw]
      rw [expandTabsGo_no_tab _ _ hrest]
      have hz : settings.expanded_spaces.toNat = 0 := Int.toNat_of_nonpos hw
      simp [hz]
    · simp only [expandTabsGo, if_neg hw]
      rw [expandTabsGo_no_tab _ _ hrest]
      simp

/-! ## Settings lemmas -/

theorem readKV_error_of_bad (line : String) (k v : List Char) (h : badKV k v = true) :
    ∀ (s : NPSettings) (i : Nat), readKV s i line k v = .error (.badValue (i + 1) line) := by
  intro s i
  simp only [badKV] at h
  simp only [readKV]
  by_cases hk : pyLower (pyTrim k) = "use_tabs".data
  · rw [if_pos hk] at h ⊢
    cases hsb : strtoboolL (pyLower (pyTrim v)) with
    | none => rfl
    | some b => rw [hsb] at h; simp at h
  · rw [if_neg hk] at h ⊢
    by_cases he : pyLower (pyTrim k) = "expanded_spaces".data
    · rw [if_pos he] at h ⊢
      cases hpi : pyParseIntL (pyLower (pyTrim v)) with
      | none => rfl
      | some n => rw [hpi] at h; simp at h
    · rw [if_neg he] at h
      exact Bool.noConfusion (show (false : Bool) = true from h)

theorem readStep_error_of_bad (line : String) (h : recognizedKeyBadValue line = true) :
    ∀ (s : NPSettings) (i : Nat), readStep s i line = .error (.badValue (i + 1) line) := by
  intro s i
  simp only [recognizedKeyBadValue] at h
  simp only [readStep]
  by_cases h1 : pyTrim line.data = []
  · rw [if_pos h1] at h
    exact Bool.noConfusion (show (false : Bool) = true from h)
  · rw [if_neg h1] at h ⊢
    by_cases h2 : headIsHash (pyTrim line.data) = true
    · rw [if_pos h2] at h
      exact Bool.noConfusion (show (false : Bool) = true from h)
    · rw [if_neg h2] at h ⊢
      cases hsp : pySplitChar ':' line.data with
      | nil =>
        rw [hsp] at h
        exact Bool.noConfusion (show (false : Bool) = true from h)
      | cons k tl =>
        cases tl with
        | nil =>
          rw [hsp] at h
          exact Bool.noConfusion (show (false : Bool) = true from h)
        | cons v tl2 =>
          cases tl2 with
          | nil =>
            rw [hsp] at h
            exact readKV_error_of_bad line k v h s i
          | cons w tl3 =>
            rw [hsp] at h
            exact Bool.noConfusion (show (false : Bool) = true from h)

theorem readLines_append_ok (pre rest : List String) (s s1 : NPSettings) (i : Nat)
    (h : readLines s i pre = (s1, none)) :
    readLines s i (pre ++ rest) = readLines s1 (i + pre.length) rest := by
  induction pre generalizing s i with
  | nil =>
    have hs : s = s1 := congrArg Prod.fst h
    subst hs
    simp [readLines]
  | cons l ls ih =>
    have hcons : (l :: ls) ++ rest = l :: (ls ++ rest) := rfl
    rw [hcons]
    cases hstep : readStep s i l with
    | ok s' =>
      have hred : readLines s i (l :: ls) = readLines s' (i + 1) ls := by
        simp only [readLines, hstep]
      rw [hred] at h
      have hred2 : readLines s i (l :: (ls ++ rest)) = readLines s' (i + 1) (ls ++ rest) := by
        simp only [readLines, hstep]
      rw [hred2, ih _ _ h]
      have harith : i + 1 + ls.length = i + (l :: ls).length := by simp; omega
      rw [harith]
    | error e =>
      have hred : readLines s i (l :: ls) = (s, some e) := by
        simp only [readLines, hstep]
      rw [hred] at h
      exact absurd (congrArg Prod.snd h) (by simp)

/-- Reading a settings file that parses cleanly up to a malformed
recognised-key line: the load stops on that line with the error identifying
it, holds the settings accumulated from the earlier lines, and never looks at
the rest of the file. -/
theorem read_stops_at_bad (s0 s1 : NPSettings) (pre rest : List String) (bad : String)
    (hpre : readLines s0 0 pre = (s1, none))
    (hbad : recognizedKeyBadValue bad = true) :
    NPSettings.read s0 (pre ++ bad :: rest) =
      (s1, some (.badValue (pre.length + 1) bad)) := by
  unfold NPSettings.read
  rw [readLines_append_ok pre (bad :: rest) s0 s1 0 hpre]
  have hred : readLines s1 (0 + pre.length) (bad :: rest) =
      (s1, some (.badValue (0 + pre.length + 1) bad)) := by
    simp only [readLines, readStep_error_of_bad bad hbad s1 (0 + pre.length)]
  rw [hred]
  norm_num

/-! ## Claim theorems -/

/-- Claim C1: the claim states that whenever some tracked region has no
marker line (or no closing line after it), the update aborts before any
write and the file is unchanged.  The code violates this: when the *second*
region (headers) has no marker line, the `start_index`/`end_index` values
left over from the sources pass are silently reused, the buffer is mutated
with them, and the run completes and writes.  Here the buffer has a valid
`SRCS` region but no line containing both `set` and `HDR`; the full pipeline
(`np_update`, with one `.c` file under `src` and one `.h` file under
`include`) still returns a buffer to write — one in which the sources region
has been overwritten with the headers listing — instead of aborting. -/
theorem update_writes_despite_missing_headers_marker :
    (∀ l ∈ ["set ( SRCS\n", "old\n", ")\n", "tail\n"],
      matchesTokens ["set", "HDR"] l = false) ∧
    np_update NPSettings.initial [⟨"a.c", "a.c"⟩] [⟨"b.h", "b.h"⟩]
        ["set ( SRCS\n", "old\n", ")\n", "tail\n"] =
      some ["set ( SRCS\n", "  include/b.h\n", ")\n", "tail\n"] ∧
    (["set ( SRCS\n", "  include/b.h\n", ")\n", "tail\n"] : List String) ≠
      ["set ( SRCS\n", "old\n", ")\n", "tail\n"] := by
  refine ⟨by decide, rfl, by decide⟩

/-- Claim C2 counterexample: the claim says the end boundary is the first
subsequent line whose *trimmed* content begins with `)`.  On a buffer whose
closing line is indented (`"  )\n"`), the claim's boundary exists (index 2)
but the code checks `line.startswith(')')` on the raw line, never finds a
closing line, leaves `end_index` unbound and dies with `NameError` instead
of performing the claimed replacement. -/
theorem indented_close_line_not_found :
    claimEndBoundary ["set ( SRCS\n", "old\n", "  )\n"] 1 = some 2 ∧
    regionPass ["set", "SRCS"] ⟨false, none, none⟩ (some ["  src/x.c\n"])
        ["set ( SRCS\n", "old\n", "  )\n"] = none := ⟨rfl, rfl⟩

/-- Claim C2 (amended): for a region whose marker line is unique (no other
line matches all its tokens) and is followed by a line that itself begins
with `)` — untrimmed, as the code checks — the start boundary is the index
immediately after the marker line, the end boundary is the index of the
first subsequent line beginning with `)`, neither boundary line is replaced,
and exactly the lines between them are removed and replaced by the freshly
discovered lines, in order, at the start-boundary position. -/
theorem region_boundaries_and_replacement (tok : List String) (st : ScanState)
    (P I S : List String) (m c : String) (new : List String)
    (hseek : st.seek_end = false)
    (hP : ∀ l ∈ P, matchesTokens tok l = false)
    (hm : matchesTokens tok m = true)
    (hI : ∀ l ∈ I, startsWithParen l = false)
    (hc : startsWithParen c = true)
    (hS : ∀ l ∈ S, matchesTokens tok l = false) :
    regionPass tok st (some new) (P ++ m :: I ++ c :: S) =
      some (P ++ m :: new ++ c :: S,
        ⟨false, some (P.length + 1), some (P.length + 1 + I.length)⟩) :=
  regionPass_structured tok st P I S m c new hseek hP hm hI hc hS

/-- Witness for the amended claim C2 at a concrete buffer. -/
theorem region_boundaries_and_replacement_witness :
    (matchesTokens ["set", "SRCS"] "set ( SRCS\n" = true ∧
      startsWithParen ")\n" = true) ∧
    regionPass ["set", "SRCS"] ⟨false, none, none⟩ (some ["  src/a.c\n"])
        (["# top\n"] ++ "set ( SRCS\n" :: ["  old\n"] ++ ")\n" :: ["# rest\n"]) =
      some (["# top\n"] ++ "set ( SRCS\n" :: ["  src/a.c\n"] ++ ")\n" :: ["# rest\n"],
        ⟨false, some 2, some 3⟩) :=
  ⟨⟨by decide, by decide⟩,
    region_boundaries_and_replacement ["set", "SRCS"] ⟨false, none, none⟩
      ["# top\n"] ["  old\n"] ["# rest\n"] "set ( SRCS\n" ")\n" ["  src/a.c\n"]
      rfl (by decide) (by decide) (by decide) (by decide) (by decide)⟩

/-- Claim C3: the claim states that the headers pass carries no mutable scan
state over from the sources pass and that its boundaries depend only on the
buffer and its own tokens.  The code initialises `seek_end` once outside the
region loop and never resets `start_index`/`end_index`, so all three leak.
On this buffer the sources pass ends with `seek_end = True` (a stray
`set …SRCS` line with no closing line after it), and the headers pass starts
scanning in close-seeking mode with the stale indices: with the carried
state it computes `end_index = 2` — a line *above* its own marker — and
completes, while the same pass started from a clean state on the same buffer
finds no closing line after its marker and aborts with `NameError`.  The
final conjunct shows the full update run completing with the carried
state. -/
theorem headers_pass_depends_on_carried_state :
    regionPass ["set", "SRCS"] ⟨false, none, none⟩ (some ["SRC1\n"])
        ["set ( SRCS\n", "old\n", ")\n", "z set SRCS\n", "set ( HDRS\n", "oldh\n"] =
      some (["set ( SRCS\n", "old\n", ")\n", "z set SRCS\n", "SRC1\n",
          "set ( HDRS\n", "oldh\n"],
        ⟨true, some 4, some 2⟩) ∧
    regionPass ["set", "HDR"] ⟨true, some 4, some 2⟩ (some ["HDR1\n"])
        ["set ( SRCS\n", "old\n", ")\n", "z set SRCS\n", "SRC1\n",
          "set ( HDRS\n", "oldh\n"] =
      some (["set ( SRCS\n", "old\n", ")\n", "z set SRCS\n", "SRC1\n",
          "set ( HDRS\n", "HDR1\n", "oldh\n"],
        ⟨true, some 6, some 2⟩) ∧
    regionPass ["set", "HDR"] ⟨false, none, none⟩ (some ["HDR1\n"])
        ["set ( SRCS\n", "old\n", ")\n", "z set SRCS\n", "SRC1\n",
          "set ( HDRS\n", "oldh\n"] = none ∧
    update_cmakelist_sources (some ["SRC1\n"]) (some ["HDR1\n"])
        ["set ( SRCS\n", "old\n", ")\n", "z set SRCS\n", "set ( HDRS\n", "oldh\n"] =
      some ["set ( SRCS\n", "old\n", ")\n", "z set SRCS\n", "SRC1\n",
        "set ( HDRS\n", "HDR1\n", "oldh\n"] :=
  ⟨rfl, rfl, rfl, rfl⟩

/-- Claim C4: when the buffer decomposes into two disjoint well-formed
tracked regions — a unique sources marker line followed by its closing line,
then a unique headers marker line followed by its closing line, with no
other line matching either region's tokens (the data model requires marker
tokens to co-occur on exactly one line for a region to be resolvable) and no
stray closing line inside an interior — the rewrite touches only the two
interiors: the prefix `P`, both marker lines, both closing lines, the middle
`M` and the suffix `S` appear in the output byte-identical and in the same
relative order. -/
theorem update_preserves_outside_lines
    (P I1 M I2 S src hdr : List String) (m1 c1 m2 c2 : String)
    (hP1 : ∀ l ∈ P, matchesTokens ["set", "SRCS"] l = false)
    (hP2 : ∀ l ∈ P, matchesTokens ["set", "HDR"] l = false)
    (hm1 : matchesTokens ["set", "SRCS"] m1 = true)
    (hm1h : matchesTokens ["set", "HDR"] m1 = false)
    (hI1 : ∀ l ∈ I1, startsWithParen l = false)
    (hc1 : startsWithParen c1 = true)
    (hc1h : matchesTokens ["set", "HDR"] c1 = false)
    (hM1 : ∀ l ∈ M, matchesTokens ["set", "SRCS"] l = false)
    (hM2 : ∀ l ∈ M, matchesTokens ["set", "HDR"] l = false)
    (hm2 : matchesTokens ["set", "HDR"] m2 = true)
    (hm2s : matchesTokens ["set", "SRCS"] m2 = false)
    (hI2 : ∀ l ∈ I2, startsWithParen l = false)
    (hI2s : ∀ l ∈ I2, matchesTokens ["set", "SRCS"] l = false)
    (hc2 : startsWithParen c2 = true)
    (hc2s : matchesTokens ["set", "SRCS"] c2 = false)
    (hS1 : ∀ l ∈ S, matchesTokens ["set", "SRCS"] l = false)
    (hS2 : ∀ l ∈ S, matchesTokens ["set", "HDR"] l = false)
    (hsrcH : ∀ l ∈ src, matchesTokens ["set", "HDR"] l = false) :
    update_cmakelist_sources (some src) (some hdr)
        (P ++ m1 :: I1 ++ c1 :: (M ++ m2 :: I2 ++ c2 :: S)) =
      some (P ++ m1 :: src ++ c1 :: (M ++ m2 :: hdr ++ c2 :: S)) :=
  update_structured P I1 M I2 S src hdr m1 c1 m2 c2 hP1 hP2 hm1 hm1h hI1 hc1 hc1h
    hM1 hM2 hm2 hm2s hI2 hI2s hc2 hc2s hS1 hS2 hsrcH

/-- Witness for claim C4 on the template-shaped buffer. -/
theorem update_preserves_outside_lines_witness :
    (matchesTokens ["set", "SRCS"] "set ( SRCS \n" = true ∧
      matchesTokens ["set", "HDR"] "set ( HDRS\n" = true) ∧
    update_cmakelist_sources (some ["  src/a.c\n"]) (some ["  include/b.h\n"])
        (["# hello\n"] ++ "set ( SRCS \n" :: ["  # project sources\n"] ++ ")\n" ::
          (["\n"] ++ "set ( HDRS\n" :: ["  # project headers\n"] ++ ")\n" ::
            ["add_executable( x )\n"])) =
      some (["# hello\n"] ++ "set ( SRCS \n" :: ["  src/a.c\n"] ++ ")\n" ::
        (["\n"] ++ "set ( HDRS\n" :: ["  include/b.h\n"] ++ ")\n" ::
          ["add_executable( x )\n"])) :=
  ⟨⟨by decide, by decide⟩,
    update_preserves_outside_lines ["# hello\n"] ["  # project sources\n"] ["\n"]
      ["  # project headers\n"] ["add_executable( x )\n"] ["  src/a.c\n"]
      ["  include/b.h\n"] "set ( SRCS \n" ")\n" "set ( HDRS\n" ")\n"
      (by decide) (by decide) (by decide) (by decide) (by decide) (by decide)
      (by decide) (by decide) (by decide) (by decide) (by decide) (by decide)
      (by decide) (by decide) (by decide) (by decide) (by decide) (by decide)⟩

/-- Claim C5: with the file tree unchanged between runs, discovery is
deterministic, so both runs insert the same `src` and `hdr` line lists.  On
a buffer with two well-formed disjoint regions (and discovered lines that
are ordinary path lines: they do not begin with `)` and do not contain a
region's marker tokens), the first run produces the buffer with both
interiors replaced, and a second run on that buffer reproduces it exactly —
the region contents after the second run are the same lists as after the
first, hence in particular set-equal. -/
theorem update_idempotent_on_structured_buffers
    (P I1 M I2 S src hdr : List String) (m1 c1 m2 c2 : String)
    (hP1 : ∀ l ∈ P, matchesTokens ["set", "SRCS"] l = false)
    (hP2 : ∀ l ∈ P, matchesTokens ["set", "HDR"] l = false)
    (hm1 : matchesTokens ["set", "SRCS"] m1 = true)
    (hm1h : matchesTokens ["set", "HDR"] m1 = false)
    (hI1 : ∀ l ∈ I1, startsWithParen l = false)
    (hc1 : startsWithParen c1 = true)
    (hc1h : matchesTokens ["set", "HDR"] c1 = false)
    (hM1 : ∀ l ∈ M, matchesTokens ["set", "SRCS"] l = false)
    (hM2 : ∀ l ∈ M, matchesTokens ["set", "HDR"] l = false)
    (hm2 : matchesTokens ["set", "HDR"] m2 = true)
    (hm2s : matchesTokens ["set", "SRCS"] m2 = false)
    (hI2 : ∀ l ∈ I2, startsWithParen l = false)
    (hI2s : ∀ l ∈ I2, matchesTokens ["set", "SRCS"] l = false)
    (hc2 : startsWithParen c2 = true)
    (hc2s : matchesTokens ["set", "SRCS"] c2 = false)
    (hS1 : ∀ l ∈ S, matchesTokens ["set", "SRCS"] l = false)
    (hS2 : ∀ l ∈ S, matchesTokens ["set", "HDR"] l = false)
    (hsrcH : ∀ l ∈ src, matchesTokens ["set", "HDR"] l = false)
    (hsrcP : ∀ l ∈ src, startsWithParen l = false)
    (hhdrP : ∀ l ∈ hdr, startsWithParen l = false)
    (hhdrS : ∀ l ∈ hdr, matchesTokens ["set", "SRCS"] l = false) :
    update_cmakelist_sources (some src) (some hdr)
        (P ++ m1 :: I1 ++ c1 :: (M ++ m2 :: I2 ++ c2 :: S)) =
      some (P ++ m1 :: src ++ c1 :: (M ++ m2 :: hdr ++ c2 :: S)) ∧
    update_cmakelist_sources (some src) (some hdr)
        (P ++ m1 :: src ++ c1 :: (M ++ m2 :: hdr ++ c2 :: S)) =
      some (P ++ m1 :: src ++ c1 :: (M ++ m2 :: hdr ++ c2 :: S)) :=
  ⟨update_structured P I1 M I2 S src hdr m1 c1 m2 c2 hP1 hP2 hm1 hm1h hI1 hc1 hc1h
      hM1 hM2 hm2 hm2s hI2 hI2s hc2 hc2s hS1 hS2 hsrcH,
    update_structured P src M hdr S src hdr m1 c1 m2 c2 hP1 hP2 hm1 hm1h hsrcP hc1 hc1h
      hM1 hM2 hm2 hm2s hhdrP hhdrS hc2 hc2s hS1 hS2 hsrcH⟩

/-- Witness for claim C5: two successive runs on the template-shaped buffer. -/
theorem update_idempotent_on_structured_buffers_witness :
    (matchesTokens ["set", "SRCS"] "set ( SRCS \n" = true ∧
      startsWithParen "  src/a.c\n" = false) ∧
    update_cmakelist_sources (some ["  src/a.c\n"]) (some ["  include/b.h\n"])
        (["#\n"] ++ "set ( SRCS \n" :: ["  # project sources\n"] ++ ")\n" ::
          (["\n"] ++ "set ( HDRS\n" :: ["  # project headers\n"] ++ ")\n" :: ["\n"])) =
      some (["#\n"] ++ "set ( SRCS \n" :: ["  src/a.c\n"] ++ ")\n" ::
        (["\n"] ++ "set ( HDRS\n" :: ["  include/b.h\n"] ++ ")\n" :: ["\n"])) ∧
    update_cmakelist_sources (some ["  src/a.c\n"]) (some ["  include/b.h\n"])
        (["#\n"] ++ "set ( SRCS \n" :: ["  src/a.c\n"] ++ ")\n" ::
          (["\n"] ++ "set ( HDRS\n" :: ["  include/b.h\n"] ++ ")\n" :: ["\n"])) =
      some (["#\n"] ++ "set ( SRCS \n" :: ["  src/a.c\n"] ++ ")\n" ::
        (["\n"] ++ "set ( HDRS\n" :: ["  include/b.h\n"] ++ ")\n" :: ["\n"])) := by
  have h := update_idempotent_on_structured_buffers ["#\n"] ["  # project sources\n"]
    ["\n"] ["  # project headers\n"] ["\n"] ["  src/a.c\n"] ["  include/b.h\n"]
    "set ( SRCS \n" ")\n" "set ( HDRS\n" ")\n"
    (by decide) (by decide) (by decide) (by decide) (by decide) (by decide)
    (by decide) (by decide) (by decide) (by decide) (by decide) (by decide)
    (by decide) (by decide) (by decide) (by decide) (by decide) (by decide)
    (by decide) (by decide) (by decide)
  exact ⟨⟨by decide, by decide⟩, h.1, h.2⟩

/-- Claim C6: the claim states that discovery over a subdirectory with no
matching files returns exactly one fallback comment line.  The source indeed
computes that comment, but then calls `resulting_paths.append()` with *no
argument*, which raises `TypeError` at runtime — discovery crashes (here:
`none`) instead of returning the one-line list, for `src`, for `include`,
and for a directory containing only non-matching files. -/
theorem seek_sources_no_match_crashes :
    seek_sources "src" NPSettings.initial [] = none ∧
    seek_sources "include" NPSettings.initial [] = none ∧
    seek_sources "src" NPSettings.initial [⟨"notes.txt", "notes.txt"⟩] = none :=
  ⟨rfl, rfl, rfl⟩

/-- Claim C7 counterexample: the claim asserts each matched file's line is
one indentation unit, then the subdirectory, `/`, the relative path
verbatim (backslashes normalised), then a newline.  For a file whose name
contains a tab, under space indentation `expandtabs` also rewrites the tab
*inside* the path by column arithmetic (`a\tb.c` becomes `a b.c` at width
2), so the produced line is not of the claimed shape. -/
theorem discovery_tab_in_path_reformatted :
    seek_sources "src" NPSettings.initial [⟨"a\tb.c", "a\tb.c"⟩] =
      some ["  src/a b.c\n"] ∧
    ("  src/a b.c\n" : String) ≠ "  " ++ "src" ++ "/" ++ "a\tb.c" ++ "\n" :=
  ⟨rfl, by decide⟩

/-- Claim C7 (amended): provided the subdirectory name and the matched
relative paths contain no tab character, a file is included by discovery iff
its name ends with one of `.c`, `cpp`, `cxx`, `h`, `hpp`, `hxx`, and each
included file yields exactly one line — one indentation unit (a tab,
rendered as `expanded_spaces` spaces when space indentation is configured),
the subdirectory name, `/`, the relative path with backslashes normalised to
`/`, and a newline — in walk order.  (At least one file must match, else
discovery crashes; see the C6 theorem.) -/
theorem discovery_inclusion_and_format (sub : String) (settings : NPSettings)
    (walk : List WalkEntry)
    (hsub : '\t' ∉ sub.data)
    (hrel : ∀ e ∈ walk, '\t' ∉ e.rel.data)
    (hsome : ∃ e ∈ walk, endswithAny e.fname language_extensions = true) :
    seek_sources sub settings walk =
      some (walk.filterMap (fun e =>
        if endswithAny e.fname language_extensions then
          some (indentUnit settings ++ sub ++ "/" ++ normSlashes e.rel ++ "\n")
        else none)) := by
  have hcong : walk.filterMap (fun e =>
        if endswithAny e.fname language_extensions then
          some (formatPath sub settings e.rel) else none) =
      walk.filterMap (fun e =>
        if endswithAny e.fname language_extensions then
          some (indentUnit settings ++ sub ++ "/" ++ normSlashes e.rel ++ "\n")
        else none) := by
    apply List.filterMap_congr
    intro e he
    by_cases hm : endswithAny e.fname language_extensions = true
    · rw [if_pos hm, if_pos hm, formatPath_eq sub settings e.rel hsub (hrel e he)]
    · rw [if_neg hm, if_neg hm]
  obtain ⟨e, he, hm⟩ := hsome
  have hmem : (indentUnit settings ++ sub ++ "/" ++ normSlashes e.rel ++ "\n") ∈
      walk.filterMap (fun e =>
        if endswithAny e.fname language_extensions then
          some (indentUnit settings ++ sub ++ "/" ++ normSlashes e.rel ++ "\n")
        else none) := by
    rw [List.mem_filterMap]
    exact ⟨e, he, by rw [if_pos hm]⟩
  simp only [seek_sources, hcong]
  cases hl : walk.filterMap (fun e =>
      if endswithAny e.fname language_extensions then
        some (indentUnit settings ++ sub ++ "/" ++ normSlashes e.rel ++ "\n")
      else none) with
  | nil =>
    rw [hl] at hmem
    exact absurd hmem (List.not_mem_nil _)
  | cons a as => simp

/-- Witness for the amended claim C7: one matching and one non-matching
file under default settings. -/
theorem discovery_inclusion_and_format_witness :
    (∃ e ∈ [WalkEntry.mk "a.cpp" "a.cpp", WalkEntry.mk "w.txt" "w.txt"],
      endswithAny e.fname language_extensions = true) ∧
    seek_sources "src" NPSettings.initial
        [WalkEntry.mk "a.cpp" "a.cpp", WalkEntry.mk "w.txt" "w.txt"] =
      some ["  src/a.cpp\n"] := by
  refine ⟨⟨⟨"a.cpp", "a.cpp"⟩, by decide, by decide⟩, ?_⟩
  have h := discovery_inclusion_and_format "src" NPSettings.initial
    [⟨"a.cpp", "a.cpp"⟩, ⟨"w.txt", "w.txt"⟩] (by decide) (by decide)
    ⟨⟨"a.cpp", "a.cpp"⟩, by decide, by decide⟩
  exact h.trans (by rfl)

/-- Claim C8: the claim states that when the target directory already
exists, the initializer reports failure, touches no files and leaves the
filesystem unchanged.  `make_project_folder` does report failure (`False`),
but `create_project` discards that result and proceeds: since the existing
target is a directory, the `io.open(created_path + '/CMakeLists.txt', 'w')`
succeeds and a `CMakeLists.txt` is written (or overwritten) inside the
pre-existing directory — the filesystem is mutated. -/
theorem create_project_writes_into_existing_directory :
    make_project_folder ⟨["proj"], []⟩ "proj" = (⟨["proj"], []⟩, false) ∧
    (create_project ⟨["proj"], []⟩ "proj" none "C/CXX").map
        (fun fs => (fs.dirs, fs.files.map Prod.fst)) =
      some (["proj"], ["proj/CMakeLists.txt"]) :=
  ⟨rfl, rfl⟩

/-- Claim C9: a settings file whose lines parse cleanly up to one whose key
is recognised (`use_tabs` or `expanded_spaces`) but whose value fails to
parse as a boolean respectively an integer makes the load fail with a
`ConfigParseError` (the uncaught `ValueError` from `strtobool`/`int`)
raised at that line, aborting the load: the remaining lines are never
examined. -/
theorem settings_malformed_value_aborts (s0 s1 : NPSettings)
    (pre rest : List String) (bad : String)
    (hpre : readLines s0 0 pre = (s1, none))
    (hbad : recognizedKeyBadValue bad = true) :
    NPSettings.read s0 (pre ++ bad :: rest) =
      (s1, some (ConfigParseError.badValue (pre.length + 1) bad)) :=
  read_stops_at_bad s0 s1 pre rest bad hpre hbad

/-- Witness for claim C9: `use_tabs: yes` parses, `expanded_spaces: two`
aborts the load at line 2, and the trailing `use_tabs: no` is ignored. -/
theorem settings_malformed_value_aborts_witness :
    recognizedKeyBadValue "expanded_spaces: two\n" = true ∧
    NPSettings.read NPSettings.initial
        (["use_tabs: yes\n"] ++ "expanded_spaces: two\n" :: ["use_tabs: no\n"]) =
      (⟨true, 2⟩, some (ConfigParseError.badValue 2 "expanded_spaces: two\n")) :=
  ⟨by decide,
    settings_malformed_value_aborts NPSettings.initial ⟨true, 2⟩
      ["use_tabs: yes\n"] ["use_tabs: no\n"] "expanded_spaces: two\n"
      (by decide) (by decide)⟩

/-- Claim C10: the settings load mutates the object field by field, so when
a later recognised-key line fails to parse and the load errors out, the
object still holds every assignment made by the earlier, successfully
parsed lines — the load is not atomic on error. -/
theorem settings_earlier_assignments_persist (s0 s1 : NPSettings)
    (pre rest : List String) (bad : String)
    (hpre : readLines s0 0 pre = (s1, none))
    (hbad : recognizedKeyBadValue bad = true) :
    (NPSettings.read s0 (pre ++ bad :: rest)).fst = s1 := by
  rw [read_stops_at_bad s0 s1 pre rest bad hpre hbad]

/-- Witness for claim C10: `expanded_spaces: 8` is applied, then
`use_tabs: maybe` errors out, and the returned object keeps width 8. -/
theorem settings_earlier_assignments_persist_witness :
    readLines NPSettings.initial 0 ["expanded_spaces: 8\n"] = (⟨false, 8⟩, none) ∧
    recognizedKeyBadValue "use_tabs: maybe\n" = true ∧
    (NPSettings.read NPSettings.initial
        (["expanded_spaces: 8\n"] ++ "use_tabs: maybe\n" :: [])).fst = ⟨false, 8⟩ :=
  ⟨by decide, by decide,
    settings_earlier_assignments_persist NPSettings.initial ⟨false, 8⟩
      ["expanded_spaces: 8\n"] [] "use_tabs: maybe\n" (by decide) (by decide)⟩
